import Mathlib

set_option autoImplicit false

/-!
Shallow embedding of the hiirc event-dispatch core (src/core.rs).

The Rust code keeps its state in `Mutex`/`Arc` cells and mutates in place;
here the same operations are modelled as pure state-transformers on an
explicit `Irc` state.  Callback invocations on the user's `Listener` and
wire transmissions through the `Writer` are recorded in an ordered trace
(`List Ev`) in exactly the order the Rust code performs them.

String helpers (`lowercase`, `containsChar`, `splitSpaces`,
`startsWithHash`) are definitional mirrors of the Rust `str` methods used
by the source (`to_lowercase`, `contains`, `split(" ")`, `starts_with("#")`),
written structurally over `String.data` so that concrete instances reduce
in the kernel.  Only ASCII inputs occur in the claims, where the Unicode
and ASCII lowercasings agree.
-/

namespace Hiirc

/-- ASCII lowercasing of a character, agreeing with Rust
`char::to_lowercase` on ASCII input. -/
def lowerChar (c : Char) : Char :=
  if 'A' ≤ c ∧ c ≤ 'Z' then Char.ofNat (c.toNat + 32) else c

/-- Mirror of Rust `str::to_lowercase` (ASCII fragment). -/
def lowercase (s : String) : String :=
  String.mk (s.data.map lowerChar)

/-- Mirror of Rust `str::contains(char)`. -/
def containsChar (s : String) (c : Char) : Bool :=
  s.data.contains c

/-- Mirror of Rust `str::starts_with("#")`. -/
def startsWithHash (s : String) : Bool :=
  s.data.head? == some '#'

/-- Splitting a character list at every space, keeping empty pieces:
the semantics of Rust `str::split(" ")`. -/
def splitCharList : List Char → List (List Char)
  | [] => [[]]
  | c :: rest =>
    if c = ' ' then
      [] :: splitCharList rest
    else
      match splitCharList rest with
      | [] => [[c]]
      | g :: gs => (c :: g) :: gs

/-- Mirror of Rust `str::split(" ")` on strings. -/
def splitSpaces (s : String) : List String :=
  (splitCharList s.data).map String.mk

/-- Errors that can occur (core.rs `Error`).  The payload of `IoError` is
irrelevant to the dispatcher and omitted. -/
inductive Error
  | AlreadyClosed
  | AlreadyDisconnected
  | Closed
  | Disconnected
  | IoError
  | Multiline
  deriving DecidableEq, Repr

/-- Status of a user inside a channel (core.rs `ChannelUserStatus`). -/
inductive ChannelUserStatus
  | Normal
  | Voice
  | HalfOperator
  | Operator
  | Owner
  deriving DecidableEq, Repr

/-- User inside a channel (core.rs `ChannelUser`); the `Mutex<Arc<…>>`
cells become plain fields. -/
structure ChannelUser where
  nickname : String
  status : ChannelUserStatus
  deriving DecidableEq, Repr

namespace ChannelUser

/-- core.rs `ChannelUser::new`. -/
def new (nickname : String) (status : ChannelUserStatus) : ChannelUser :=
  ⟨nickname, status⟩

/-- core.rs `ChannelUser::from_raw`: decode the leading status sigil of a
raw name-list token.  When a sigil is recognized, Rust takes `&raw[1..]`,
a one-byte slice offset; every sigil is a one-byte character, so this is
dropping the first character. -/
def from_raw (raw : String) : ChannelUser :=
  let status : ChannelUserStatus :=
    match raw.data.head? with
    | some '~' => .Owner
    | some '&' => .Owner
    | some '%' => .HalfOperator
    | some '@' => .Operator
    | some '+' => .Voice
    | _ => .Normal
  let nickname : String :=
    if status = ChannelUserStatus.Normal then raw else String.mk raw.data.tail
  ⟨nickname, status⟩

end ChannelUser

/-- Channel (core.rs `Channel`). -/
structure Channel where
  users : List ChannelUser
  name : String
  topic : Option String
  deriving DecidableEq, Repr

namespace Channel

/-- core.rs `Channel::new`. -/
def new (name : String) : Channel :=
  ⟨[], name, none⟩

/-- core.rs `Channel::user`: first user whose nickname matches exactly. -/
def user (c : Channel) (nickname : String) : Option ChannelUser :=
  c.users.find? (fun u => u.nickname == nickname)

/-- core.rs `Channel::add_user`: unconditionally pushes at the end. -/
def add_user (c : Channel) (u : ChannelUser) : Channel :=
  { c with users := c.users ++ [u] }

/-- Remove the first element matching the nickname, returning it
(the `position` + `Vec::remove` pattern of core.rs `Channel::remove_user`). -/
def removeFirst (nickname : String) : List ChannelUser → List ChannelUser × Option ChannelUser
  | [] => ([], none)
  | u :: rest =>
    if u.nickname == nickname then
      (rest, some u)
    else
      (u :: (removeFirst nickname rest).1, (removeFirst nickname rest).2)

/-- core.rs `Channel::remove_user`. -/
def remove_user (c : Channel) (nickname : String) : Channel × Option ChannelUser :=
  ({ c with users := (removeFirst nickname c.users).1 },
   (removeFirst nickname c.users).2)

/-- Apply `f` to the first user matching the nickname, if any: the
`if let Some(user) = channel.user(n) { user.set_… }` pattern of core.rs,
where the returned handle aliases the stored user. -/
def updateFirst (nickname : String) (f : ChannelUser → ChannelUser) :
    List ChannelUser → List ChannelUser
  | [] => []
  | u :: rest =>
    if u.nickname == nickname then f u :: rest
    else u :: updateFirst nickname f rest

/-- Update the first user with the given nickname. -/
def update_user (c : Channel) (nickname : String) (f : ChannelUser → ChannelUser) : Channel :=
  { c with users := updateFirst nickname f c.users }

/-- core.rs `Channel::set_topic`: an empty topic is stored as absence. -/
def set_topic (c : Channel) (topic : String) : Channel :=
  { c with topic := if topic = "" then none else some topic }

end Channel

/-- Status of the connection (core.rs `ConnectionStatus`). -/
inductive ConnectionStatus
  | Closed (reason : String)
  | Connected
  | Disconnected
  | Reconnecting
  deriving DecidableEq, Repr

/-- Connection state (core.rs `Irc`): the `HashMap<String, Arc<Channel>>`
becomes an association list whose keys are unique by construction (entries
are only created by `ensure_channel_exists`, which inserts a key at most
once).  The `Writer` half is modelled by recording transmissions in the
dispatch trace instead. -/
structure Irc where
  channels : List (String × Channel)
  status : ConnectionStatus
  deriving DecidableEq, Repr

namespace Irc

/-- core.rs `Irc::new` (writer omitted). -/
def new : Irc :=
  ⟨[], .Connected⟩

/-- core.rs `Irc::get_channel_by_id`: lookup by exact key. -/
def get_channel_by_id (irc : Irc) (id : String) : Option Channel :=
  (irc.channels.find? (fun p => p.1 == id)).map (fun p => p.2)

/-- core.rs `Irc::channel`: lookup by lowercased name. -/
def channel (irc : Irc) (name : String) : Option Channel :=
  irc.get_channel_by_id (lowercase name)

/-- core.rs `Irc::ensure_channel_exists`: `entry(id).or_insert(Channel::new(name))`. -/
def ensure_channel_exists (irc : Irc) (name id : String) : Irc :=
  if (irc.get_channel_by_id id).isSome then irc
  else { irc with channels := irc.channels ++ [(id, Channel.new name)] }

/-- Apply `f` to the channel stored under the exact key `id`
(the `channels.get_mut(id)` pattern). -/
def modify_channel (irc : Irc) (id : String) (f : Channel → Channel) : Irc :=
  { irc with
    channels := irc.channels.map (fun p => if p.1 == id then (p.1, f p.2) else p) }

/-- core.rs `Irc::channel_set_topic`: silently a no-op when the key is
absent. -/
def channel_set_topic (irc : Irc) (channel_id topic : String) : Irc :=
  match irc.get_channel_by_id channel_id with
  | none => irc
  | some _ => irc.modify_channel channel_id (fun c => c.set_topic topic)

/-- core.rs `Irc::channel_add_user`: silently a no-op when the key is
absent; decodes the raw token. -/
def channel_add_user (irc : Irc) (channel_id raw : String) : Irc :=
  match irc.get_channel_by_id channel_id with
  | none => irc
  | some _ => irc.modify_channel channel_id (fun c => c.add_user (ChannelUser.from_raw raw))

/-- core.rs `Irc::channel_del_user`: removes the user inside the channel
(when the channel exists) but unconditionally returns `None` — the value
produced by `Channel::remove_user` is discarded by the source. -/
def channel_del_user (irc : Irc) (channel_id nickname : String) : Irc × Option ChannelUser :=
  match irc.get_channel_by_id channel_id with
  | none => (irc, none)
  | some _ =>
    (irc.modify_channel channel_id (fun c => (c.remove_user nickname).1), none)

/-- The nested `match old_status { … match &mode[..] { … } }` inside
core.rs `Irc::channel_update_user_mode`, as a pure transition function.
The source merges `Operator | Owner` into one arm; it is split here with
identical right-hand sides. -/
def modeTransition (old_status : ChannelUserStatus) (mode : String) : ChannelUserStatus :=
  match old_status with
  | .Normal =>
    match mode with
    | "+v" => .Voice
    | "+h" => .HalfOperator
    | "+o" => .Operator
    | _ => .Normal
  | .HalfOperator =>
    match mode with
    | "-h" => .Normal
    | _ => .HalfOperator
  | .Voice =>
    match mode with
    | "-v" => .Normal
    | _ => .Voice
  | .Operator =>
    match mode with
    | "-o" => .Normal
    | _ => .Operator
  | .Owner =>
    match mode with
    | "-o" => .Normal
    | _ => .Owner

/-- core.rs `Irc::channel_update_user_mode`. -/
def channel_update_user_mode (irc : Irc) (channel_id nickname mode : String) :
    Irc × Option (ChannelUserStatus × ChannelUserStatus) :=
  match irc.get_channel_by_id channel_id with
  | none => (irc, none)
  | some ch =>
    match ch.user nickname with
    | none => (irc, none)
    | some u =>
      let old_status := u.status
      let new_status := modeTransition old_status mode
      (irc.modify_channel channel_id
        (fun c => c.update_user nickname (fun v => { v with status := new_status })),
       some (old_status, new_status))

/-- core.rs `Irc::clear_channels`. -/
def clear_channels (irc : Irc) : Irc :=
  { irc with channels := [] }

/-- core.rs `Irc::set_status`. -/
def set_status (irc : Irc) (status : ConnectionStatus) : Irc :=
  { irc with status := status }

end Irc

/-- core.rs `impl IrcWrite for Irc`, `fn raw`: the outbound command sink.
A successful send hands `raw ++ "\n"` to the writer; the transmitted wire
line is returned in place of the writer side effect. -/
def raw (s : String) : Except Error String :=
  if containsChar s '\n' || containsChar s '\r' then .error .Multiline
  else .ok (s ++ "\n")

/-- User half of a message's origin (loirc `User`); only the nickname is
read by the dispatcher, the username and host are omitted. -/
structure PrefixUser where
  nickname : String
  deriving DecidableEq, Repr

/-- Origin of a message (loirc `Prefix`): a bare server name or a user. -/
inductive Pfx
  | server (name : String)
  | user (u : PrefixUser)
  deriving DecidableEq, Repr

/-- Message codes (loirc `Code`), restricted to the codes the dispatcher
recognizes plus `Other`, which stands for every remaining reply code and
carries the transport's error classification for it. -/
inductive Code
  | RplWelcome
  | RplNamreply
  | RplEndofnames
  | Topic
  | RplTopic
  | RplNotopic
  | Join
  | Part
  | Privmsg
  | Notice
  | Quit
  | Nick
  | Kick
  | Ping
  | Pong
  | Mode
  | Other (isErr : Bool)
  deriving DecidableEq, Repr

/-- Modelled from the spec: the transport's error-reply classification
(loirc `Code::is_error`) lives outside src/.  Per the spec, a message may
or may not be "classified as an error reply"; none of the sixteen codes
the dispatcher handles is an error reply, so the classification is the
flag carried by `Other`. -/
def Code.is_error : Code → Bool
  | .Other b => b
  | _ => false

/-- Parsed protocol message (loirc `Message`). -/
structure Message where
  pfx : Option Pfx
  code : Code
  args : List String
  deriving DecidableEq, Repr

/-- Inbound event from the transport (loirc `Event`). -/
inductive Event
  | closed (reason : String)
  | disconnected
  | reconnecting
  | reconnected
  | message (msg : Message)
  deriving DecidableEq, Repr

/-- One invocation of a `Listener` callback, with the data relevant to
the claims (channels by display name, users by nickname). -/
inductive Cb
  | any
  | closeCb (reason : String)
  | disconnectCb
  | reconnectingCb
  | reconnectCb
  | msgCb
  | errorMsgCb
  | welcome
  | channelJoin (channel : String)
  | userJoin (channel nickname : String)
  | userPart (channel nickname : String)
  | userQuit (nickname : String)
  | channelMsg (channel nickname text : String)
  | channelNotice (channel nickname text : String)
  | privateMsg (nickname text : String)
  | privateNotice (nickname text : String)
  | topicCb (channel : String) (topic : Option String)
  | topicChange (channel : String) (topic : Option String)
  | nickChange (oldnick newnick : String)
  | kickCb (channel nickname : String)
  | ping (server : String)
  | pong (server : String)
  | userModeChange (channel nickname : String)
      (old_status new_status : ChannelUserStatus)
  deriving DecidableEq, Repr

/-- One observable step of a dispatch: a callback invocation or a wire
transmission through the command sink. -/
inductive Ev
  | cb (c : Cb)
  | tx (line : String)
  deriving DecidableEq, Repr

/-- The trace of an outbound send whose result is discarded
(`let _ = self.irc.…`): the transmitted line if the send succeeded,
nothing on a multiline rejection. -/
def txOf (s : String) : List Ev :=
  match raw s with
  | .ok line => [.tx line]
  | .error _ => []

/-- The dispatcher's settings (settings.rs `Settings`), restricted to the
fields the dispatcher reads. -/
structure Settings where
  nickname : String
  username : String
  realname : String
  auto_ident : Bool
  auto_ping : Bool
  deriving DecidableEq, Repr

namespace Dispatch

/-- core.rs `Dispatch::name_reply`. -/
def name_reply (irc : Irc) (msg : Message) : Irc × List Ev :=
  match msg.args.get? 2 with
  | none => (irc, [])
  | some channel_name =>
    let channel_id := lowercase channel_name
    match msg.args.getLast? with
    | none => (irc, [])
    | some user_list =>
      let irc := irc.ensure_channel_exists channel_name channel_id
      let irc := (splitSpaces user_list).foldl
        (fun i rawTok => i.channel_add_user channel_id rawTok) irc
      (irc, [])

/-- core.rs `Dispatch::end_name_reply`. -/
def end_name_reply (irc : Irc) (msg : Message) : Irc × List Ev :=
  match msg.args.get? 1 with
  | none => (irc, [])
  | some channel_name =>
    match irc.channel channel_name with
    | none => (irc, [])
    | some ch => (irc, [.cb (.channelJoin ch.name)])

/-- core.rs `Dispatch::topic`.  The call
`ensure_channel_exists(&channel_id, channel_name)` passes the lowercased
id as the `name` parameter and the original-case name as the `id`
parameter; the embedding reproduces that argument order. -/
def topic (irc : Irc) (msg : Message) : Irc × List Ev :=
  match msg.args.getLast? with
  | none => (irc, [])
  | some t =>
    match msg.args.get? 0 with
    | none => (irc, [])
    | some channel_name =>
      let channel_id := lowercase channel_name
      let irc := irc.ensure_channel_exists channel_id channel_name
      let irc := irc.channel_set_topic channel_id t
      match irc.get_channel_by_id channel_id with
      | none => (irc, [])
      | some ch => (irc, [.cb (.topicChange ch.name ch.topic)])

/-- core.rs `Dispatch::rpl_topic`, with the same
`ensure_channel_exists(&channel_id, channel_name)` argument order as the
source. -/
def rpl_topic (irc : Irc) (msg : Message) : Irc × List Ev :=
  match msg.args.getLast? with
  | none => (irc, [])
  | some t =>
    match msg.args.get? 1 with
    | none => (irc, [])
    | some channel_name =>
      let channel_id := lowercase channel_name
      let irc := irc.ensure_channel_exists channel_id channel_name
      let irc := irc.channel_set_topic channel_id t
      match irc.get_channel_by_id channel_id with
      | none => (irc, [])
      | some ch => (irc, [.cb (.topicCb ch.name ch.topic)])

/-- core.rs `Dispatch::rpl_no_topic`. -/
def rpl_no_topic (irc : Irc) (msg : Message) : Irc × List Ev :=
  match msg.args.get? 0 with
  | none => (irc, [])
  | some channel_name =>
    let channel_id := lowercase channel_name
    let irc := irc.ensure_channel_exists channel_name channel_id
    let irc := irc.channel_set_topic channel_id ""
    match irc.get_channel_by_id channel_id with
    | none => (irc, [])
    | some ch => (irc, [.cb (.topicCb ch.name none)])

/-- core.rs `Dispatch::join`. -/
def join (irc : Irc) (msg : Message) : Irc × List Ev :=
  match msg.pfx with
  | some (.user pu) =>
    match msg.args.get? 0 with
    | none => (irc, [])
    | some channel_name =>
      let channel_id := lowercase channel_name
      let irc := irc.channel_add_user channel_id pu.nickname
      match irc.get_channel_by_id channel_id with
      | none => (irc, [])
      | some ch =>
        match ch.user pu.nickname with
        | none => (irc, [])
        | some u => (irc, [.cb (.userJoin ch.name u.nickname)])
  | _ => (irc, [])

/-- core.rs `Dispatch::part`: the member is removed first, then the
channel and the user are looked up to supply the callback's arguments. -/
def part (irc : Irc) (msg : Message) : Irc × List Ev :=
  match msg.pfx with
  | some (.user pu) =>
    match msg.args.get? 0 with
    | none => (irc, [])
    | some channel_name =>
      let channel_id := lowercase channel_name
      let irc := (irc.channel_del_user channel_id pu.nickname).1
      match irc.get_channel_by_id channel_id with
      | none => (irc, [])
      | some ch =>
        match ch.user pu.nickname with
        | none => (irc, [])
        | some u => (irc, [.cb (.userPart ch.name u.nickname)])
  | _ => (irc, [])

/-- core.rs `Dispatch::message` (privmsg/notice). -/
def message (irc : Irc) (msg : Message) (notice : Bool) : Irc × List Ev :=
  match msg.pfx with
  | some (.user pu) =>
    match msg.args.getLast? with
    | none => (irc, [])
    | some text =>
      match msg.args.get? 0 with
      | none => (irc, [])
      | some source =>
        if startsWithHash source then
          match irc.channel source with
          | none => (irc, [])
          | some ch =>
            match ch.user pu.nickname with
            | none => (irc, [])
            | some u =>
              if !notice then (irc, [.cb (.channelMsg ch.name u.nickname text)])
              else (irc, [.cb (.channelNotice ch.name u.nickname text)])
        else
          if !notice then (irc, [.cb (.privateMsg pu.nickname text)])
          else (irc, [.cb (.privateNotice pu.nickname text)])
  | _ => (irc, [])

/-- core.rs `Dispatch::quit`: removes the first matching member from
every channel, then notifies. -/
def quit (irc : Irc) (msg : Message) : Irc × List Ev :=
  match msg.pfx with
  | some (.user pu) =>
    let irc := { irc with
      channels := irc.channels.map (fun p => (p.1, (p.2.remove_user pu.nickname).1)) }
    (irc, [.cb (.userQuit pu.nickname)])
  | _ => (irc, [])

/-- core.rs `Dispatch::nick`: renames the first matching member in every
channel, then notifies. -/
def nick (irc : Irc) (msg : Message) : Irc × List Ev :=
  match msg.pfx with
  | some (.user pu) =>
    match msg.args.getLast? with
    | none => (irc, [])
    | some newname =>
      let irc := { irc with
        channels := irc.channels.map
          (fun p => (p.1, p.2.update_user pu.nickname (fun u => { u with nickname := newname }))) }
      (irc, [.cb (.nickChange pu.nickname newname)])
  | _ => (irc, [])

/-- core.rs `Dispatch::kick`: `some_or_return!` on the value returned by
`channel_del_user`. -/
def kick (irc : Irc) (msg : Message) : Irc × List Ev :=
  match msg.args.getLast? with
  | none => (irc, [])
  | some kicked_user =>
    match msg.args.get? 0 with
    | none => (irc, [])
    | some channel_name =>
      let channel_id := lowercase channel_name
      let (irc, removed) := irc.channel_del_user channel_id kicked_user
      match removed with
      | none => (irc, [])
      | some u =>
        match irc.get_channel_by_id channel_id with
        | none => (irc, [])
        | some ch => (irc, [.cb (.kickCb ch.name u.nickname)])

/-- core.rs `Dispatch::ping`: when auto-ping is enabled the pong reply is
sent (its result discarded) before the ping callback. -/
def ping (settings : Settings) (irc : Irc) (msg : Message) : Irc × List Ev :=
  match msg.args.getLast? with
  | none => (irc, [])
  | some server =>
    let evs := if settings.auto_ping then txOf ("PONG " ++ server) else []
    (irc, evs ++ [.cb (.ping server)])

/-- core.rs `Dispatch::pong`. -/
def pong (irc : Irc) (msg : Message) : Irc × List Ev :=
  match msg.args.getLast? with
  | none => (irc, [])
  | some server => (irc, [.cb (.pong server)])

/-- core.rs `Dispatch::mode`. -/
def mode (irc : Irc) (msg : Message) : Irc × List Ev :=
  match msg.args.get? 1 with
  | none => (irc, [])
  | some m =>
    match msg.args.get? 2 with
    | none => (irc, [])
    | some nickname =>
      match msg.args.get? 0 with
      | none => (irc, [])
      | some channel_name =>
        let channel_id := lowercase channel_name
        let (irc, r) := irc.channel_update_user_mode channel_id nickname m
        match r with
        | none => (irc, [])
        | some (old_status, new_status) =>
          if old_status ≠ new_status then
            match irc.get_channel_by_id channel_id with
            | none => (irc, [])
            | some ch =>
              match ch.user nickname with
              | none => (irc, [])
              | some u => (irc, [.cb (.userModeChange ch.name u.nickname old_status u.status)])
          else (irc, [])

/-- The `match msg.code { … }` of core.rs `Dispatch::feed`: exactly one
specialized handler per recognized code, nothing for the rest. -/
def handle_message (settings : Settings) (irc : Irc) (msg : Message) : Irc × List Ev :=
  match msg.code with
  | .RplWelcome => (irc, [.cb .welcome])
  | .RplNamreply => name_reply irc msg
  | .RplEndofnames => end_name_reply irc msg
  | .Topic => topic irc msg
  | .RplTopic => rpl_topic irc msg
  | .RplNotopic => rpl_no_topic irc msg
  | .Join => join irc msg
  | .Part => part irc msg
  | .Privmsg => message irc msg false
  | .Notice => message irc msg true
  | .Quit => quit irc msg
  | .Nick => nick irc msg
  | .Kick => kick irc msg
  | .Ping => ping settings irc msg
  | .Pong => pong irc msg
  | .Mode => mode irc msg
  | .Other _ => (irc, [])

/-- core.rs `Dispatch::feed` (activity-monitor feeding omitted: it is a
transport concern with no effect on state, callbacks or transmissions). -/
def feed (settings : Settings) (irc : Irc) (event : Event) : Irc × List Ev :=
  match event with
  | .closed reason =>
    (irc.set_status (.Closed reason), [.cb .any, .cb (.closeCb reason)])
  | .disconnected =>
    ((irc.set_status .Disconnected).clear_channels, [.cb .any, .cb .disconnectCb])
  | .reconnecting =>
    (irc.set_status .Reconnecting, [.cb .any, .cb .reconnectingCb])
  | .reconnected =>
    let irc := irc.set_status .Connected
    let evs :=
      if settings.auto_ident then
        txOf ("USER " ++ settings.username ++ " 8 * :" ++ settings.realname) ++
          txOf ("NICK " ++ settings.nickname)
      else []
    (irc, .cb .any :: evs ++ [.cb .reconnectCb])
  | .message msg =>
    let err := if msg.code.is_error then [Ev.cb .errorMsgCb] else []
    let (irc, hevs) := handle_message settings irc msg
    (irc, .cb .any :: .cb .msgCb :: err ++ hevs)

end Dispatch

/-! ### Store lemmas -/

/-- Mapping an update that only touches entries with the matching key
commutes with `find?` on that key. -/
lemma find_if_map (l : List (String × Channel)) (id : String) (f : Channel → Channel) :
    (l.map (fun p => if p.1 == id then (p.1, f p.2) else p)).find? (fun p => p.1 == id)
      = (l.find? (fun p => p.1 == id)).map (fun p => (p.1, f p.2)) := by
  induction l with
  | nil => rfl
  | cons p l ih =>
    cases h : (p.1 == id) with
    | true =>
      rw [List.map_cons, if_pos h,
        List.find?_cons_of_pos (p := fun q : String × Channel => q.1 == id) _
          (show ((p.1, f p.2).1 == id) = true from h),
        List.find?_cons_of_pos (p := fun q : String × Channel => q.1 == id) _ h]
      rfl
    | false =>
      rw [List.map_cons, if_neg (by simp [h]),
        List.find?_cons_of_neg (p := fun q : String × Channel => q.1 == id) _ (by simp [h]),
        List.find?_cons_of_neg (p := fun q : String × Channel => q.1 == id) _ (by simp [h]), ih]

/-- `modify_channel` acts on the looked-up channel. -/
lemma get_modify (irc : Irc) (id : String) (f : Channel → Channel) :
    (irc.modify_channel id f).get_channel_by_id id = (irc.get_channel_by_id id).map f := by
  simp only [Irc.modify_channel, Irc.get_channel_by_id, find_if_map, Option.map_map]
  rfl

/-- `ensure_channel_exists` always leaves a channel under the key. -/
lemma get_ensure (irc : Irc) (name id : String) :
    (irc.ensure_channel_exists name id).get_channel_by_id id
      = some ((irc.get_channel_by_id id).getD (Channel.new name)) := by
  unfold Irc.ensure_channel_exists
  cases h : irc.get_channel_by_id id with
  | some c => simp [h]
  | none =>
    simp only [h, Option.isSome_none, Bool.false_eq_true, if_false, Option.getD_none]
    unfold Irc.get_channel_by_id at h ⊢
    rw [List.find?_append]
    cases hf : irc.channels.find? (fun p => p.1 == id) with
    | some p => rw [hf] at h; simp at h
    | none => simp [List.find?_cons]

/-- `channel_add_user` appends the decoded member to an existing channel. -/
lemma get_add_user (irc : Irc) (id rawTok : String) (ch : Channel)
    (h : irc.get_channel_by_id id = some ch) :
    (irc.channel_add_user id rawTok).get_channel_by_id id
      = some (ch.add_user (ChannelUser.from_raw rawTok)) := by
  unfold Irc.channel_add_user
  rw [h]
  simp [get_modify, h]

/-- Folding `channel_add_user` over a token list appends one decoded
member per token to an existing channel. -/
lemma fold_add_users (toks : List String) (irc : Irc) (id : String) (ch : Channel)
    (h : irc.get_channel_by_id id = some ch) :
    ((toks.foldl (fun i r => i.channel_add_user id r) irc).get_channel_by_id id)
      = some { ch with users := ch.users ++ toks.map ChannelUser.from_raw } := by
  induction toks generalizing irc ch with
  | nil => simpa using h
  | cons t toks ih =>
    have step := get_add_user irc id t ch h
    have := ih (irc.channel_add_user id t) (ch.add_user (ChannelUser.from_raw t)) step
    simpa [Channel.add_user, List.append_assoc] using this

/-- `channel_del_user` applies `remove_user` to an existing channel. -/
lemma get_del_user (irc : Irc) (id n : String) (ch : Channel)
    (h : irc.get_channel_by_id id = some ch) :
    (irc.channel_del_user id n).1.get_channel_by_id id
      = some ((ch.remove_user n).1) := by
  unfold Irc.channel_del_user
  rw [h]
  simp [get_modify, h]

/-- After removing the first match from a list holding at most one match,
no match remains. -/
lemma removeFirst_find_none (n : String) (us : List ChannelUser)
    (h : us.countP (fun u => u.nickname == n) ≤ 1) :
    ((Channel.removeFirst n us).1).find? (fun u => u.nickname == n) = none := by
  induction us with
  | nil => rfl
  | cons u rest ih =>
    cases hu : (u.nickname == n) with
    | true =>
      have hz : rest.countP (fun u => u.nickname == n) = 0 := by
        rw [List.countP_cons] at h
        simp only [hu, if_true] at h
        omega
      simp only [Channel.removeFirst, hu, if_true]
      rw [List.find?_eq_none]
      intro x hx
      simpa using List.countP_eq_zero.mp hz x hx
    | false =>
      have h' : rest.countP (fun u => u.nickname == n) ≤ 1 := by
        rw [List.countP_cons] at h
        simp only [hu, Bool.false_eq_true, if_false] at h
        omega
      simp [Channel.removeFirst, hu, List.find?_cons, ih h']

/-- Removing a present member shortens the list by one. -/
lemma removeFirst_length (n : String) (us : List ChannelUser) (u : ChannelUser)
    (h : us.find? (fun x => x.nickname == n) = some u) :
    (Channel.removeFirst n us).1.length + 1 = us.length := by
  induction us with
  | nil => simp at h
  | cons v rest ih =>
    cases hv : (v.nickname == n) with
    | true => simp [Channel.removeFirst, hv]
    | false =>
      rw [List.find?_cons, hv] at h
      simp [Channel.removeFirst, hv, ih h]

/-! ### Claims -/

/-- Transition table of the claim for C1, transcribed from its words:
from Normal, +v gives Voice, +h gives HalfOp, +o gives Operator; from
Voice, +h gives HalfOp, +o gives Operator, -v gives Normal; from HalfOp,
+o gives Operator, -h gives Normal; from Operator or Owner, -o gives
Normal; every combination not listed leaves the status unchanged. -/
def claimedModeTable (s : ChannelUserStatus) (m : String) : ChannelUserStatus :=
  match s, m with
  | .Normal, "+v" => .Voice
  | .Normal, "+h" => .HalfOperator
  | .Normal, "+o" => .Operator
  | .Voice, "+h" => .HalfOperator
  | .Voice, "+o" => .Operator
  | .Voice, "-v" => .Normal
  | .HalfOperator, "+o" => .Operator
  | .HalfOperator, "-h" => .Normal
  | .Operator, "-o" => .Normal
  | .Owner, "-o" => .Normal
  | s, _ => s

/-- Transition table of the C1 claim as amended: the promotions from
Voice (+h, +o) and from HalfOp (+o) are dropped, because the code leaves
the status unchanged there; every combination not listed is a no-op. -/
def amendedModeTable (s : ChannelUserStatus) (m : String) : ChannelUserStatus :=
  match s, m with
  | .Normal, "+v" => .Voice
  | .Normal, "+h" => .HalfOperator
  | .Normal, "+o" => .Operator
  | .Voice, "-v" => .Normal
  | .HalfOperator, "-h" => .Normal
  | .Operator, "-o" => .Normal
  | .Owner, "-o" => .Normal
  | s, _ => s

/-- C1 counterexample: the mode-update code does not implement the
claimed table.  At current status Voice with token "+o" (and likewise
Voice "+h", HalfOp "+o") the claimed table promotes, but the code leaves
the status unchanged. -/
theorem mode_table_claim_counterexample :
    Irc.modeTransition .Voice "+o" = .Voice
    ∧ claimedModeTable .Voice "+o" = .Operator
    ∧ Irc.modeTransition .Voice "+o" ≠ claimedModeTable .Voice "+o"
    ∧ Irc.modeTransition .Voice "+h" = .Voice
    ∧ claimedModeTable .Voice "+h" = .HalfOperator
    ∧ Irc.modeTransition .HalfOperator "+o" = .HalfOperator
    ∧ claimedModeTable .HalfOperator "+o" = .Operator := by
  refine ⟨rfl, rfl, ?_, rfl, rfl, rfl, rfl⟩
  decide

/-- C1 (amended): for every current status and mode token, the mode
transition performed by `Irc::channel_update_user_mode` is exactly the
amended table: from Normal, +v gives Voice, +h gives HalfOp, +o gives
Operator; from Voice, -v gives Normal; from HalfOp, -h gives Normal; from
Operator or Owner, -o gives Normal; every other combination leaves the
status unchanged (a no-op, not an error). -/
theorem mode_translation_follows_amended_table (s : ChannelUserStatus) (m : String) :
    Irc.modeTransition s m = amendedModeTable s m := by
  cases s <;> unfold Irc.modeTransition amendedModeTable <;>
    (repeat' split) <;> simp_all

/-- C2: `Irc::channel_del_user` removes the member inside the channel but
returns `None` unconditionally, discarding the removed member; hence the
kick handler's `some_or_return!` on that value always aborts and the kick
callback never fires.  Evaluated at a Kick for channel "#test" naming the
member "bob": the member is removed, yet the trace holds only the
catch-all callbacks, no kick callback. -/
theorem kick_removes_member_but_never_fires_callback :
    (∀ (irc : Irc) (id n : String), (irc.channel_del_user id n).2 = none)
    ∧ Dispatch.feed ⟨"nick", "user", "real", true, true⟩
        ⟨[("#test", ⟨[⟨"bob", .Normal⟩], "#test", none⟩)], .Connected⟩
        (.message ⟨some (.server "srv"), .Kick, ["#test", "bob"]⟩)
      = (⟨[("#test", ⟨[], "#test", none⟩)], .Connected⟩, [.cb .any, .cb .msgCb]) := by
  constructor
  · intro irc id n
    unfold Irc.channel_del_user
    cases irc.get_channel_by_id id <;> rfl
  · decide

/-- C4: in `Dispatch::topic` (and `Dispatch::rpl_topic`) the arguments of
`ensure_channel_exists` are swapped, so a topic-change for channel
"#Test" on an empty store creates the channel under the original-case key
"#Test" with the lowercased string "#test" as display name — the opposite
of the claim — and the subsequent lookup by the channel name (which
lowercases) finds nothing: the topic is never stored and no topic
callback fires. -/
theorem topic_change_stores_swapped_key_and_name :
    Dispatch.feed ⟨"nick", "user", "real", true, true⟩ Irc.new
        (.message ⟨none, .Topic, ["#Test", "hello"]⟩)
      = (⟨[("#Test", ⟨[], "#test", none⟩)], .Connected⟩, [.cb .any, .cb .msgCb])
    ∧ (Dispatch.feed ⟨"nick", "user", "real", true, true⟩ Irc.new
        (.message ⟨none, .Topic, ["#Test", "hello"]⟩)).1.channel "#Test" = none
    ∧ Dispatch.feed ⟨"nick", "user", "real", true, true⟩ Irc.new
        (.message ⟨none, .RplTopic, ["me", "#Test", "hello"]⟩)
      = (⟨[("#Test", ⟨[], "#test", none⟩)], .Connected⟩, [.cb .any, .cb .msgCb]) := by
  refine ⟨by decide, by decide, by decide⟩

/-- C6: the Command Sink's raw operation rejects any payload containing a
line-break character with the Multiline failure and transmits nothing;
for every payload without a line break it appends the line terminator and
transmits. -/
theorem raw_rejects_multiline_else_appends_terminator (s : String) :
    ((containsChar s '\n' || containsChar s '\r') = true → raw s = .error .Multiline)
    ∧ ((containsChar s '\n' || containsChar s '\r') = false → raw s = .ok (s ++ "\n")) := by
  constructor <;> intro h <;> simp [raw, h]

/-- Witness for C6 at the payloads "a\nb" (rejected) and "PING x"
(transmitted with the terminator appended). -/
theorem raw_rejects_multiline_else_appends_terminator_witness :
    raw "a\nb" = .error .Multiline ∧ raw "PING x" = .ok "PING x\n" :=
  ⟨(raw_rejects_multiline_else_appends_terminator "a\nb").1 (by decide),
   (raw_rejects_multiline_else_appends_terminator "PING x").2 (by decide)⟩

/-- C7: processing a Disconnected lifecycle event sets the connection
status to Disconnected and removes every channel (hence every member),
so a channel lookup by any name returns absent afterwards. -/
theorem disconnect_clears_channels (settings : Settings) (irc : Irc) (name : String) :
    (Dispatch.feed settings irc .disconnected).1.status = .Disconnected
    ∧ (Dispatch.feed settings irc .disconnected).1.channels = []
    ∧ (Dispatch.feed settings irc .disconnected).1.channel name = none := by
  refine ⟨rfl, rfl, rfl⟩

/-- C8: decoding a raw name-list token yields the documented status for
its leading sigil (~ or & gives Owner, @ gives Operator, % gives
HalfOperator, + gives Voice, anything else gives Normal), strips exactly
one leading sigil character when a sigil is present, and strips nothing
otherwise; in particular "@alice" decodes to nickname "alice" with status
Operator and "alice" to nickname "alice" with status Normal. -/
theorem from_raw_decodes_sigil_and_strips_it (rest s : String) :
    ChannelUser.from_raw ("~" ++ rest) = ⟨rest, .Owner⟩
    ∧ ChannelUser.from_raw ("&" ++ rest) = ⟨rest, .Owner⟩
    ∧ ChannelUser.from_raw ("@" ++ rest) = ⟨rest, .Operator⟩
    ∧ ChannelUser.from_raw ("%" ++ rest) = ⟨rest, .HalfOperator⟩
    ∧ ChannelUser.from_raw ("+" ++ rest) = ⟨rest, .Voice⟩
    ∧ ((∀ c, s.data.head? = some c →
          c ≠ '~' ∧ c ≠ '&' ∧ c ≠ '@' ∧ c ≠ '%' ∧ c ≠ '+') →
        ChannelUser.from_raw s = ⟨s, .Normal⟩)
    ∧ ChannelUser.from_raw "@alice" = ⟨"alice", .Operator⟩
    ∧ ChannelUser.from_raw "alice" = ⟨"alice", .Normal⟩ := by
  refine ⟨?_, ?_, ?_, ?_, ?_, ?_, by decide, by decide⟩
  case _ => simp [ChannelUser.from_raw, String.data_append]
  case _ => simp [ChannelUser.from_raw, String.data_append]
  case _ => simp [ChannelUser.from_raw, String.data_append]
  case _ => simp [ChannelUser.from_raw, String.data_append]
  case _ => simp [ChannelUser.from_raw, String.data_append]
  case _ =>
    intro hns
    unfold ChannelUser.from_raw
    cases hd : s.data.head? with
    | none => simp [hd]
    | some c =>
      obtain ⟨h1, h2, h3, h4, h5⟩ := hns c hd
      simp only [hd]
      split <;> simp_all

/-- Witness for C8: the no-sigil branch applied at the token "alice". -/
theorem from_raw_decodes_sigil_and_strips_it_witness :
    ChannelUser.from_raw "alice" = ⟨"alice", .Normal⟩ :=
  (from_raw_decodes_sigil_and_strips_it "x" "alice").2.2.2.2.2.1 (by decide)

/-- C3 counterexample: a single name-reply whose trailing argument
repeats the nickname "bob" produces a channel whose member list contains
two Members with that nickname, so the at-most-one invariant fails within
one join cycle. -/
theorem duplicate_members_counterexample :
    (Dispatch.feed ⟨"nick", "user", "real", true, true⟩ Irc.new
        (.message ⟨none, .RplNamreply, ["me", "=", "#c", "bob bob"]⟩)).1.channels
      = [("#c", ⟨[⟨"bob", .Normal⟩, ⟨"bob", .Normal⟩], "#c", none⟩)]
    ∧ ¬ (((Dispatch.feed ⟨"nick", "user", "real", true, true⟩ Irc.new
        (.message ⟨none, .RplNamreply, ["me", "=", "#c", "bob bob"]⟩)).1.channels.map
          (fun p => p.2.users.countP (fun u => u.nickname == "bob"))) = [1]) := by
  refine ⟨by decide, by decide⟩

/-- C3 (amended): name-reply processing appends one Member per
whitespace-separated token of the trailing argument to the (created if
absent) channel, without deduplication, so a channel's member list may
contain more than one Member per nickname: repeated name-reply tokens for
the same nickname within one join cycle produce one duplicate member per
repetition. -/
theorem name_reply_appends_one_member_per_token (irc : Irc) (msg : Message)
    (cname ulist : String) (ch : Channel)
    (h2 : msg.args.get? 2 = some cname)
    (hl : msg.args.getLast? = some ulist)
    (hch : (irc.ensure_channel_exists cname (lowercase cname)).get_channel_by_id
        (lowercase cname) = some ch) :
    (Dispatch.name_reply irc msg).1.get_channel_by_id (lowercase cname)
      = some { ch with users := ch.users ++ (splitSpaces ulist).map ChannelUser.from_raw } := by
  unfold Dispatch.name_reply
  rw [h2, hl]
  exact fold_add_users (splitSpaces ulist) _ _ ch hch

/-- Witness for C3 (amended) at the name-reply of the counterexample:
the channel ends with one appended member per token, "bob" twice. -/
theorem name_reply_appends_one_member_per_token_witness :
    (Dispatch.name_reply Irc.new ⟨none, .RplNamreply, ["me", "=", "#c", "bob bob"]⟩).1.get_channel_by_id
        (lowercase "#c")
      = some { Channel.new "#c" with
          users := (Channel.new "#c").users
            ++ (splitSpaces "bob bob").map ChannelUser.from_raw } :=
  name_reply_appends_one_member_per_token Irc.new
    ⟨none, .RplNamreply, ["me", "=", "#c", "bob bob"]⟩ "#c" "bob bob"
    (Channel.new "#c") (by decide) (by decide) (by decide)

/-- C5 counterexample: in a store reachable through dispatch itself (a
name-reply whose trailing argument lists "alice" twice), a Part from
alice removes only the first duplicate, the post-removal lookup finds the
second, and the user_part callback IS invoked — so the claim's "the
lookup always fails and the callback is never invoked" does not hold for
every Part naming a known channel. -/
theorem part_callback_fires_with_duplicate_members :
    Dispatch.feed ⟨"nick", "user", "real", true, true⟩
        (Dispatch.feed ⟨"nick", "user", "real", true, true⟩ Irc.new
          (.message ⟨none, .RplNamreply, ["me", "=", "#c", "alice alice"]⟩)).1
        (.message ⟨some (.user ⟨"alice"⟩), .Part, ["#c"]⟩)
      = (⟨[("#c", ⟨[⟨"alice", .Normal⟩], "#c", none⟩)], .Connected⟩,
         [.cb .any, .cb .msgCb, .cb (.userPart "#c" "alice")]) := by
  decide

/-- C5 (amended): for every Part message carrying a user prefix and
naming a known channel whose member list holds at most one Member with
the sender's nickname, processing removes the sender's Member from the
channel and the user_part callback is never invoked: the lookup that
would supply the callback's user argument runs after the removal, so it
fails and the handler aborts silently. -/
theorem part_removes_member_and_skips_callback (irc : Irc) (msg : Message)
    (pu : PrefixUser) (cname : String) (ch : Channel)
    (hp : msg.pfx = some (.user pu))
    (h0 : msg.args.get? 0 = some cname)
    (hch : irc.get_channel_by_id (lowercase cname) = some ch)
    (hcount : ch.users.countP (fun u => u.nickname == pu.nickname) ≤ 1) :
    (Dispatch.part irc msg).1.get_channel_by_id (lowercase cname)
      = some ((ch.remove_user pu.nickname).1)
    ∧ ((ch.remove_user pu.nickname).1).user pu.nickname = none
    ∧ (∀ u, ch.user pu.nickname = some u →
        ((ch.remove_user pu.nickname).1).users.length + 1 = ch.users.length)
    ∧ (Dispatch.part irc msg).2 = [] := by
  have hdel := get_del_user irc (lowercase cname) pu.nickname ch hch
  have huser : ((ch.remove_user pu.nickname).1).user pu.nickname = none := by
    unfold Channel.remove_user Channel.user
    exact removeFirst_find_none pu.nickname ch.users hcount
  have hpart : Dispatch.part irc msg
      = ((irc.channel_del_user (lowercase cname) pu.nickname).1, []) := by
    unfold Dispatch.part
    rw [hp]
    simp only [h0, hdel, huser]
  refine ⟨?_, huser, ?_, ?_⟩
  · rw [hpart]
    exact hdel
  · intro u hu
    exact removeFirst_length pu.nickname ch.users u hu
  · rw [hpart]

/-- Witness for C5 (amended): a channel "#c" holding alice exactly once;
the Part removes her and produces no callback. -/
theorem part_removes_member_and_skips_callback_witness :
    (Dispatch.part ⟨[("#c", ⟨[⟨"alice", .Normal⟩], "#c", none⟩)], .Connected⟩
        ⟨some (.user ⟨"alice"⟩), .Part, ["#c"]⟩).2 = []
    ∧ ((Channel.remove_user ⟨[⟨"alice", .Normal⟩], "#c", none⟩ "alice").1).user "alice" = none :=
  ⟨(part_removes_member_and_skips_callback
      ⟨[("#c", ⟨[⟨"alice", .Normal⟩], "#c", none⟩)], .Connected⟩
      ⟨some (.user ⟨"alice"⟩), .Part, ["#c"]⟩ ⟨"alice"⟩ "#c"
      ⟨[⟨"alice", .Normal⟩], "#c", none⟩ rfl (by decide) (by decide) (by decide)).2.2.2,
   (part_removes_member_and_skips_callback
      ⟨[("#c", ⟨[⟨"alice", .Normal⟩], "#c", none⟩)], .Connected⟩
      ⟨some (.user ⟨"alice"⟩), .Part, ["#c"]⟩ ⟨"alice"⟩ "#c"
      ⟨[⟨"alice", .Normal⟩], "#c", none⟩ rfl (by decide) (by decide) (by decide)).2.1⟩

/-- C9: for every protocol message, the dispatch trace starts with the
catch-all callbacks (any event, then any message), unconditionally;
error-classified messages then get the error callback; what follows is
the trace of the single specialized handler selected by the code, and for
unrecognized codes that remainder is empty and the state untouched. -/
theorem dispatch_order_any_error_then_one_handler
    (settings : Settings) (irc : Irc) (msg : Message) :
    (Dispatch.feed settings irc (.message msg)).2
      = .cb .any :: .cb .msgCb ::
          ((if msg.code.is_error then [Ev.cb .errorMsgCb] else [])
            ++ (Dispatch.handle_message settings irc msg).2)
    ∧ (Dispatch.feed settings irc (.message msg)).1
      = (Dispatch.handle_message settings irc msg).1
    ∧ (∀ b, msg.code = .Other b → Dispatch.handle_message settings irc msg = (irc, [])) := by
  refine ⟨rfl, rfl, ?_⟩
  intro b hb
  unfold Dispatch.handle_message
  rw [hb]

/-- Witness for C9: an unrecognized error-classified code leaves the
state untouched with no handler trace. -/
theorem dispatch_order_any_error_then_one_handler_witness :
    Dispatch.handle_message ⟨"nick", "user", "real", true, true⟩ Irc.new
      ⟨none, .Other true, []⟩ = (Irc.new, []) :=
  (dispatch_order_any_error_then_one_handler ⟨"nick", "user", "real", true, true⟩
    Irc.new ⟨none, .Other true, []⟩).2.2 true rfl

/-- C10: for a Ping message carrying a server argument (arguments come
from the transport's line framing, so the payload holds no line break):
with auto-pong enabled the pong line for that server is transmitted
through the Command Sink before the ping callback; with it disabled
nothing is transmitted; in both cases the ping callback is invoked
exactly once. -/
theorem ping_transmits_pong_before_callback
    (settings : Settings) (irc : Irc) (msg : Message) (server : String)
    (hc : msg.code = .Ping)
    (hs : msg.args.getLast? = some server)
    (hn : containsChar ("PONG " ++ server) '\n' = false)
    (hr : containsChar ("PONG " ++ server) '\r' = false) :
    (settings.auto_ping = true →
      (Dispatch.feed settings irc (.message msg)).2
        = [.cb .any, .cb .msgCb, .tx (("PONG " ++ server) ++ "\n"), .cb (.ping server)])
    ∧ (settings.auto_ping = false →
      (Dispatch.feed settings irc (.message msg)).2
        = [.cb .any, .cb .msgCb, .cb (.ping server)])
    ∧ ((Dispatch.feed settings irc (.message msg)).2.countP
        (fun e => e == Ev.cb (.ping server))) = 1 := by
  have hraw : raw ("PONG " ++ server) = .ok (("PONG " ++ server) ++ "\n") := by
    unfold raw
    rw [hn, hr]
    rfl
  have hh : Dispatch.handle_message settings irc msg
      = (irc, (if settings.auto_ping then [Ev.tx (("PONG " ++ server) ++ "\n")] else [])
          ++ [.cb (.ping server)]) := by
    unfold Dispatch.handle_message
    rw [hc]
    unfold Dispatch.ping
    rw [hs]
    simp [txOf, hraw]
  have herr : msg.code.is_error = false := by rw [hc]; rfl
  have htr : (Dispatch.feed settings irc (.message msg)).2
      = .cb .any :: .cb .msgCb ::
          ((if msg.code.is_error then [Ev.cb .errorMsgCb] else [])
            ++ (Dispatch.handle_message settings irc msg).2) := rfl
  rw [htr, herr, hh]
  refine ⟨fun hap => by simp [hap], fun hap => by simp [hap], ?_⟩
  cases hap : settings.auto_ping <;> simp [hap, List.countP_cons]

/-- Witness for C10: a PING for "irc.example.org" with auto-pong enabled
transmits the pong line before the ping callback. -/
theorem ping_transmits_pong_before_callback_witness :
    (Dispatch.feed ⟨"nick", "user", "real", true, true⟩ Irc.new
        (.message ⟨some (.server "x"), .Ping, ["irc.example.org"]⟩)).2
      = [.cb .any, .cb .msgCb, .tx (("PONG " ++ "irc.example.org") ++ "\n"),
         .cb (.ping "irc.example.org")] :=
  (ping_transmits_pong_before_callback ⟨"nick", "user", "real", true, true⟩ Irc.new
      ⟨some (.server "x"), .Ping, ["irc.example.org"]⟩ "irc.example.org"
      rfl (by decide) (by decide) (by decide)).1 rfl

end Hiirc
